import Mathlib

/-!
Shallow embedding of `custom_components/inkbird_ith11/parser.py`: the
decoder of Inkbird ITH-11-B BLE manufacturer-data payloads into
temperature, humidity and battery readings, together with proofs of the
documented decoder contract.
-/

namespace Inkbird

/-- One byte of a Python `bytes` object: an integer in `0..255`. -/
abbrev Byte := Fin 256

/-- Model of the Python values that can appear as a manufacturer-data
dictionary entry: `None`, a `bytes` object, a `bytearray`, some other
object that the `bytes(value)` conversion accepts (e.g. a `memoryview`),
or an object for which `bytes(value)` raises. -/
inductive PyValue where
  | none
  | bytes (bs : List Byte)
  | bytearray (bs : List Byte)
  | buffer (bs : List Byte)
  | nonBytes
deriving DecidableEq

/-- Model of `_as_bytes` from `parser.py`: coerce a value to a byte
string; `None` and a failing `bytes(value)` conversion (whose exception
the function swallows) both give the empty byte string. -/
def _as_bytes : PyValue → List Byte
  | .none => []
  | .bytes bs => bs
  | .bytearray bs => bs
  | .buffer bs => bs
  | .nonBytes => []

/-- The `manufacturer_data` attribute of the service-info object: either
missing (so `getattr` with default yields `None`), present but not a
`dict`, or a `dict` from integer company ids to payload values. -/
inductive MfgData where
  | absent
  | nonDict
  | dict (entries : List (Nat × PyValue))
deriving DecidableEq

/-- The `BluetoothServiceInfo`-like argument of `parse`. -/
structure ServiceInfo where
  manufacturer_data : MfgData
deriving DecidableEq

/-- The dictionary that `parse` returns: each of the three keys
`temperature`, `humidity`, `battery` may be present or absent. -/
structure ParseResult where
  temperature : Option ℚ := Option.none
  humidity : Option ℚ := Option.none
  battery : Option ℤ := Option.none
deriving DecidableEq

/-- The empty dictionary `{}` that `parse` returns on failure. -/
def emptyResult : ParseResult := {}

/-- Python `round(x, 1)` on the exact rational value of `x`: round to
the nearest tenth. Every argument the decoder passes is an exact
multiple of one tenth, so the tie-breaking rule is never exercised. -/
def pyRound1 (q : ℚ) : ℚ := (round (10 * q) : ℚ) / 10

/-- Python sequence indexing `payload[i]`, raising `IndexError` (the
`Except.error` case) when the index is out of bounds. -/
def getByte (bs : List Byte) (i : Nat) : Except Unit Byte :=
  if h : i < bs.length then .ok (bs.get ⟨i, h⟩) else .error ()

/-- The inner `try` block of `parse`: read the payload bytes at offsets
7, 6, 5, 4 and 8, build the raw 16-bit humidity and temperature and the
raw battery byte, scale by `0.1` with one-decimal rounding, and populate
all three keys of the result dictionary. -/
def decodeFields (payload : List Byte) : Except Unit ParseResult := do
  let b7 ← getByte payload 7
  let b6 ← getByte payload 6
  let b5 ← getByte payload 5
  let b4 ← getByte payload 4
  let b8 ← getByte payload 8
  let raw_hum : Nat := ((b7 : Nat) <<< 8) + (b6 : Nat)
  let raw_temp : Nat := ((b5 : Nat) <<< 8) + (b4 : Nat)
  pure { temperature := Option.some (pyRound1 ((raw_temp : ℚ) / 10)),
         humidity := Option.some (pyRound1 ((raw_hum : ℚ) / 10)),
         battery := Option.some ((b8 : Nat) : ℤ) }

/-- The body of `parse` inside the outer `try`; an `Except.error` result
stands for an exception escaping to the outer handler. The inner
`try/except` around the field decoding normalizes its own failures to
the empty dictionary before they can reach the outer handler. -/
def parseBody (si : ServiceInfo) : Except Unit ParseResult :=
  match si.manufacturer_data with
  | .absent => .ok emptyResult
  | .nonDict => .ok emptyResult
  | .dict entries =>
    if (entries.lookup 9545).isSome then
      let payload := _as_bytes ((entries.lookup 9545).getD .none)
      if payload ≠ [] ∧ payload.length > 8 then
        .ok (match decodeFields payload with
             | .ok r => r
             | .error _ => emptyResult)
      else .ok emptyResult
    else .ok emptyResult

/-- `parse` from `parser.py`: the outer `except` handler normalizes any
escaped exception to the empty dictionary. -/
def parse (si : ServiceInfo) : ParseResult :=
  match parseBody si with
  | .ok r => r
  | .error _ => emptyResult

/-- The decoder contract of the spec: one advertisement event presents a
single company id with a single payload, and `parse` is applied to the
resulting singleton manufacturer-data dictionary. -/
def decode (companyId : Nat) (payload : PyValue) : ParseResult :=
  parse ⟨.dict [(companyId, payload)]⟩

/-- The fully populated reading produced from a payload of length at
least 9, expressed with total byte access (`List.getD`). -/
def fullReading (bs : List Byte) : ParseResult :=
  { temperature := Option.some
      (pyRound1 (((((bs.getD 5 0 : Byte) : Nat) <<< 8) + ((bs.getD 4 0 : Byte) : Nat) : Nat) / 10 : ℚ)),
    humidity := Option.some
      (pyRound1 (((((bs.getD 7 0 : Byte) : Nat) <<< 8) + ((bs.getD 6 0 : Byte) : Nat) : Nat) / 10 : ℚ)),
    battery := Option.some (((bs.getD 8 0 : Byte) : Nat) : ℤ) }

/-! ### Helper lemmas characterizing the decoder -/

lemma getByte_ok (bs : List Byte) (i : Nat) (h : i < bs.length) :
    getByte bs i = Except.ok (bs.get ⟨i, h⟩) := by
  simp [getByte, h]

lemma pyRound1_natDiv (n : ℕ) : pyRound1 ((n : ℚ) / 10) = (n : ℚ) / 10 := by
  unfold pyRound1
  rw [show (10 : ℚ) * ((n : ℚ) / 10) = (n : ℚ) by ring, round_natCast]
  push_cast
  ring

lemma decodeFields_ok (bs : List Byte) (h : 8 < bs.length) :
    decodeFields bs = Except.ok (fullReading bs) := by
  have h4 : 4 < bs.length := by omega
  have h5 : 5 < bs.length := by omega
  have h6 : 6 < bs.length := by omega
  have h7 : 7 < bs.length := by omega
  simp [decodeFields, getByte, h4, h5, h6, h7, h, fullReading,
        List.getElem?_eq_getElem]
  rfl

lemma parseBody_cases (si : ServiceInfo) :
    parseBody si = Except.ok emptyResult ∨
      ∃ bs : List Byte, 8 < bs.length ∧ parseBody si = Except.ok (fullReading bs) := by
  obtain ⟨md⟩ := si
  rcases md with _ | _ | entries
  · exact Or.inl rfl
  · exact Or.inl rfl
  · unfold parseBody
    dsimp only
    split
    · split
      · next hc =>
        right
        exact ⟨_, hc.2, by rw [decodeFields_ok _ hc.2]⟩
      · exact Or.inl rfl
    · exact Or.inl rfl

lemma parse_cases (si : ServiceInfo) :
    parse si = emptyResult ∨
      ∃ bs : List Byte, 8 < bs.length ∧ parse si = fullReading bs := by
  rcases parseBody_cases si with h | ⟨bs, hl, h⟩
  · left; unfold parse; rw [h]
  · right; exact ⟨bs, hl, by unfold parse; rw [h]⟩

lemma decode_long (bs : List Byte) (h : 8 < bs.length) :
    decode 9545 (PyValue.bytes bs) = fullReading bs := by
  have hne : bs ≠ [] := by
    intro e
    rw [e] at h
    simp at h
  unfold decode parse parseBody
  simp [List.lookup_cons_self, _as_bytes, hne, h, decodeFields_ok bs h]

lemma fullReading_ne_empty (bs : List Byte) : fullReading bs ≠ emptyResult := by
  intro e
  have := congrArg ParseResult.temperature e
  simp [fullReading, emptyResult] at this

lemma byte_shift_or (a b : Byte) :
    (((a : Nat) <<< 8) ||| (b : Nat)) = ((a : Nat) <<< 8) + (b : Nat) := by
  have hb : (b : Nat) < 2 ^ 8 := b.isLt
  rw [Nat.shiftLeft_eq, Nat.mul_comm]
  exact (Nat.mul_add_lt_is_or hb _).symm

lemma fullReading_eq (bs : List Byte) (t u v : ℕ)
    (ht : (((bs.getD 5 0 : Byte) : Nat) <<< 8) + ((bs.getD 4 0 : Byte) : Nat) = t)
    (hu : (((bs.getD 7 0 : Byte) : Nat) <<< 8) + ((bs.getD 6 0 : Byte) : Nat) = u)
    (hv : ((bs.getD 8 0 : Byte) : Nat) = v) :
    fullReading bs =
      { temperature := Option.some ((t : ℚ) / 10),
        humidity := Option.some ((u : ℚ) / 10),
        battery := Option.some ((v : ℕ) : ℤ) } := by
  unfold fullReading
  rw [ht, hu, hv, pyRound1_natDiv, pyRound1_natDiv]

/-! ### Claim theorems -/

/-- C1: for every manufacturer-data payload of at least 9 bytes presented
under company id 9545, the decoded temperature is
`round(((payload[5] <<< 8) ||| payload[4]) / 10, 1)`, the decoded humidity is
`round(((payload[7] <<< 8) ||| payload[6]) / 10, 1)`, and the decoded battery
is `payload[8]` as an integer — unsigned 16-bit reconstructions with no sign
extension. -/
theorem decode_field_formulas (bs : List Byte) (h : 9 ≤ bs.length) :
    (decode 9545 (PyValue.bytes bs)).temperature
        = Option.some (pyRound1 (((((bs[5] : Nat) <<< 8) ||| (bs[4] : Nat) : Nat) : ℚ) / 10)) ∧
    (decode 9545 (PyValue.bytes bs)).humidity
        = Option.some (pyRound1 (((((bs[7] : Nat) <<< 8) ||| (bs[6] : Nat) : Nat) : ℚ) / 10)) ∧
    (decode 9545 (PyValue.bytes bs)).battery = Option.some ((bs[8] : Nat) : ℤ) := by
  have h4 : 4 < bs.length := by omega
  have h5 : 5 < bs.length := by omega
  have h6 : 6 < bs.length := by omega
  have h7 : 7 < bs.length := by omega
  have h8 : 8 < bs.length := by omega
  rw [decode_long bs h8]
  refine ⟨?_, ?_, ?_⟩ <;>
  · unfold fullReading
    simp [byte_shift_or, List.getElem?_eq_getElem, h4, h5, h6, h7, h8]

/-- Witness for C1 at a concrete 9-byte payload. -/
theorem decode_field_formulas_witness :
    (decode 9545 (PyValue.bytes [0, 0, 0, 0, 161, 0, 231, 3, 70])).temperature
        = Option.some (pyRound1 ((((([0, 0, 0, 0, 161, 0, 231, 3, 70] : List Byte)[5] : Nat) <<< 8)
            ||| (([0, 0, 0, 0, 161, 0, 231, 3, 70] : List Byte)[4] : Nat) : ℚ) / 10)) ∧
    (decode 9545 (PyValue.bytes [0, 0, 0, 0, 161, 0, 231, 3, 70])).humidity
        = Option.some (pyRound1 ((((([0, 0, 0, 0, 161, 0, 231, 3, 70] : List Byte)[7] : Nat) <<< 8)
            ||| (([0, 0, 0, 0, 161, 0, 231, 3, 70] : List Byte)[6] : Nat) : ℚ) / 10)) ∧
    (decode 9545 (PyValue.bytes [0, 0, 0, 0, 161, 0, 231, 3, 70])).battery
        = Option.some ((([0, 0, 0, 0, 161, 0, 231, 3, 70] : List Byte)[8] : Nat) : ℤ) :=
  decode_field_formulas [0, 0, 0, 0, 161, 0, 231, 3, 70] (by decide)

/-- C2 counterexample: a successful decode whose battery field is 255,
which is not between 0 and 100; the decoder applies no clamp to the raw
battery byte. -/
theorem battery_percent_counterexample :
    (decode 9545 (PyValue.bytes [0, 0, 0, 0, 0, 0, 0, 0, 255])).battery = Option.some 255 ∧
      ¬ ((255 : ℤ) ≤ 100) :=
  ⟨by decide, by decide⟩

/-- C2 (amended): for every successful decode, the battery field is an
integer between 0 and 255 inclusive (the raw byte at offset 8, unclamped). -/
theorem battery_byte_range (si : ServiceInfo) (b : ℤ)
    (h : (parse si).battery = Option.some b) : 0 ≤ b ∧ b ≤ 255 := by
  rcases parse_cases si with he | ⟨bs, _, he⟩
  · rw [he] at h
    simp [emptyResult] at h
  · rw [he] at h
    unfold fullReading at h
    simp only [Option.some_inj] at h
    have hlt : ((bs.getD 8 0 : Byte) : Nat) < 256 := (bs.getD 8 0).isLt
    omega

/-- Witness for the amended C2 at a concrete payload with battery byte 70. -/
theorem battery_byte_range_witness :
    (parse ⟨MfgData.dict [(9545, PyValue.bytes [0, 0, 0, 0, 0, 0, 0, 0, 70])]⟩).battery
        = Option.some 70 ∧
      (0 ≤ (70 : ℤ) ∧ (70 : ℤ) ≤ 255) :=
  ⟨by decide,
    battery_byte_range ⟨MfgData.dict [(9545, PyValue.bytes [0, 0, 0, 0, 0, 0, 0, 0, 70])]⟩ 70
      (by decide)⟩

/-- C3: the decode result is all-or-nothing — for every input, `parse`
returns either the empty dictionary or a dictionary in which all three of
temperature, humidity and battery are populated. -/
theorem parse_all_or_nothing (si : ServiceInfo) :
    parse si = emptyResult ∨
      ∃ t hm b, parse si =
        { temperature := Option.some t, humidity := Option.some hm,
          battery := Option.some b } := by
  rcases parse_cases si with he | ⟨bs, _, he⟩
  · exact Or.inl he
  · right
    rw [he]
    unfold fullReading
    exact ⟨_, _, _, rfl⟩

/-- C4: for every payload value, if the presented company id is not 9545
then decode returns the empty result. -/
theorem decode_wrong_company (cid : Nat) (p : PyValue) (h : cid ≠ 9545) :
    decode cid p = emptyResult := by
  unfold decode parse parseBody
  have hb : ((9545 : Nat) == cid) = false := by
    simp only [beq_eq_false_iff_ne]
    exact fun e => h e.symm
  have hl : (List.lookup 9545 [(cid, p)]) = Option.none := by
    rw [List.lookup_cons, hb]
    rfl
  simp [hl]

/-- Witness for C4 at company id 76 with a well-formed 9-byte payload. -/
theorem decode_wrong_company_witness :
    (76 : Nat) ≠ 9545 ∧
      decode 76 (PyValue.bytes [1, 2, 3, 4, 5, 6, 7, 8, 9]) = emptyResult :=
  ⟨by decide, decode_wrong_company 76 _ (by decide)⟩

/-- C5: for every payload of 8 or fewer bytes (including the empty payload)
presented under company id 9545, decode returns the empty result. -/
theorem decode_short_payload (bs : List Byte) (h : bs.length ≤ 8) :
    decode 9545 (PyValue.bytes bs) = emptyResult := by
  unfold decode parse parseBody
  have hc : ¬(bs ≠ [] ∧ bs.length > 8) := fun hcc => absurd hcc.2 (by omega)
  simp [List.lookup_cons_self, _as_bytes, hc]

/-- Witness for C5 at the empty payload. -/
theorem decode_short_payload_witness :
    ([] : List Byte).length ≤ 8 ∧ decode 9545 (PyValue.bytes []) = emptyResult :=
  ⟨by decide, decode_short_payload [] (by decide)⟩

/-- C6: for every input whatsoever — missing or non-dictionary
manufacturer data, or a payload value that is not a byte sequence — the
body of `parse` completes without an escaping exception and `parse`
returns its result: decoding is total and no fault propagates to the
caller. -/
theorem parse_total (si : ServiceInfo) :
    ∃ r : ParseResult, parseBody si = Except.ok r ∧ parse si = r := by
  rcases parseBody_cases si with h | ⟨bs, _, h⟩
  · exact ⟨emptyResult, h, by unfold parse; rw [h]⟩
  · exact ⟨fullReading bs, h, by unfold parse; rw [h]⟩

/-- C7: the two sample payloads of the spec decode under company id 9545
to temperature 16.1, humidity 99.9, battery 70, and to temperature 15.9,
humidity 99.9, battery 86 respectively. -/
theorem decode_sample_payloads :
    decode 9545 (PyValue.bytes [2, 40, 7, 92, 161, 0, 231, 3, 70, 0, 68, 8, 0, 0, 0, 0]) =
      { temperature := Option.some (161 / 10), humidity := Option.some (999 / 10),
        battery := Option.some 70 } ∧
    decode 9545 (PyValue.bytes [2, 40, 7, 92, 159, 0, 231, 3, 86, 0, 68, 8, 0, 0, 0, 0]) =
      { temperature := Option.some (159 / 10), humidity := Option.some (999 / 10),
        battery := Option.some 86 } := by
  constructor
  · rw [decode_long _ (by decide), fullReading_eq _ 161 999 70 (by decide) (by decide) (by decide)]
    simp only [ParseResult.mk.injEq, Option.some_inj]
    norm_num
  · rw [decode_long _ (by decide), fullReading_eq _ 159 999 86 (by decide) (by decide) (by decide)]
    simp only [ParseResult.mk.injEq, Option.some_inj]
    norm_num

/-- C8: two payloads of length at least 9, presented under company id
9545, that agree on bytes 4 through 8 decode to equal readings — bytes
0 to 3 and bytes beyond offset 8 have no influence. -/
theorem decode_depends_only_on_bytes_4_to_8 (bs₁ bs₂ : List Byte)
    (h₁ : 9 ≤ bs₁.length) (h₂ : 9 ≤ bs₂.length)
    (hagree : ∀ i, 4 ≤ i → i ≤ 8 → bs₁.getD i 0 = bs₂.getD i 0) :
    decode 9545 (PyValue.bytes bs₁) = decode 9545 (PyValue.bytes bs₂) := by
  rw [decode_long bs₁ (by omega), decode_long bs₂ (by omega)]
  unfold fullReading
  rw [hagree 4 (by omega) (by omega), hagree 5 (by omega) (by omega),
      hagree 6 (by omega) (by omega), hagree 7 (by omega) (by omega),
      hagree 8 (by omega) (by omega)]

/-- Witness for C8: a 9-byte and a 10-byte payload differing on bytes
0 to 3 and on the trailing byte but agreeing on bytes 4 through 8. -/
theorem decode_depends_only_on_bytes_4_to_8_witness :
    decode 9545 (PyValue.bytes [0, 0, 0, 0, 10, 0, 20, 0, 50]) =
      decode 9545 (PyValue.bytes [1, 2, 3, 4, 10, 0, 20, 0, 50, 99]) :=
  decode_depends_only_on_bytes_4_to_8 _ _ (by decide) (by decide)
    (fun i h4 h8 => by interval_cases i <;> rfl)

/-- C9: decode is deterministic and pure — it is a function of its input
alone, so identical inputs always produce identical outputs. -/
theorem parse_deterministic (si₁ si₂ : ServiceInfo) (h : si₁ = si₂) :
    parse si₁ = parse si₂ :=
  congrArg parse h

/-- Witness for C9 at a concrete input. -/
theorem parse_deterministic_witness :
    parse ⟨MfgData.absent⟩ = parse ⟨MfgData.absent⟩ :=
  parse_deterministic ⟨MfgData.absent⟩ ⟨MfgData.absent⟩ rfl

/-- C10: every byte payload of length at least 9 presented under company
id 9545 decodes successfully — the result is not the empty dictionary and
all three fields are populated. -/
theorem decode_long_payload_succeeds (bs : List Byte) (h : 9 ≤ bs.length) :
    decode 9545 (PyValue.bytes bs) ≠ emptyResult ∧
      ∃ t hm b, decode 9545 (PyValue.bytes bs) =
        { temperature := Option.some t, humidity := Option.some hm,
          battery := Option.some b } := by
  rw [decode_long bs (by omega)]
  refine ⟨fullReading_ne_empty bs, ?_⟩
  unfold fullReading
  exact ⟨_, _, _, rfl⟩

/-- Witness for C10 at a concrete 11-byte payload. -/
theorem decode_long_payload_succeeds_witness :
    decode 9545 (PyValue.bytes [0, 0, 0, 0, 161, 0, 231, 3, 70, 1, 2]) ≠ emptyResult ∧
      ∃ t hm b, decode 9545 (PyValue.bytes [0, 0, 0, 0, 161, 0, 231, 3, 70, 1, 2]) =
        { temperature := Option.some t, humidity := Option.some hm,
          battery := Option.some b } :=
  decode_long_payload_succeeds [0, 0, 0, 0, 161, 0, 231, 3, 70, 1, 2] (by decide)

end Inkbird
